import Mathlib

/-!
Shallow embedding of the control core of
`src/CSC230_IntoToComputerArchitecture_ASM-C99/LCD-PatternDisplay.asm`
(AVR assembly for an ATmega2560 LCD/button widget), together with proofs
about the embedded transition functions.

The embedding models:
* the button-decode cascade and the `timer1` button-sampler ISR;
* the `timer4` composition-updater ISR acting on the composition state
  (`CURRENT_CHAR_INDEX`, `TOP_LINE_CONTENT`, `CURRENT_CHARSET_INDEX`);
* the foreground polling loop (`polling_loop`, `set_button_press`,
  `test_which_button`, `set_char`, `clear_lcd_row`, `set_counter`)
  as a function producing the sequence of LCD driver calls.

Machine bytes are modelled as `Nat` with explicit `% 256` where the code
performs an 8-bit `inc` whose wraparound could matter.
-/

/-- ASCII constants from the source (`#define` block at `reset:`). -/
def SPACE : Nat := 0x20

def DASH : Nat := 0x2D

def ASTERISK : Nat := 0x2A

/-- `AVAILABLE_CHARSET: .db "abcdefghijklmnopqrstuvwxyz0123456789!", 0`.
The trailing `0` is the string terminator byte that is part of the
assembled table and is reachable by the `timer4` Up branch. -/
def AVAILABLE_CHARSET : List Nat :=
  ("abcdefghijklmnopqrstuvwxyz0123456789!".toList.map Char.toNat) ++ [0]

/-- `lpm` from `AVAILABLE_CHARSET + k`.  Indices past the assembled table
read unspecified program memory; the model returns 0 there, and no
theorem below depends on that default in a reachable state. -/
def palette (k : Nat) : Nat := AVAILABLE_CHARSET.getD k 0

/-- Decoded button identity.  `CURRENT_BUTTON_PRESSED` holds the ASCII
bytes `R`/`U`/`D`/`L` (0x52/0x55/0x44/0x4C); `Button.none` stands for any
other byte (in particular the zeroed startup value). -/
inductive Button where
  | none
  | right
  | up
  | down
  | left
deriving DecidableEq

/-- Glyph byte stored in `CURRENT_BUTTON_PRESSED` for each identity
(`#define RIGHT 0x52` etc.); 0 is the zeroed startup byte. -/
def buttonChar : Button → Nat
  | .right => 0x52
  | .up => 0x55
  | .down => 0x44
  | .left => 0x4C
  | .none => 0

/-- The threshold cascade of the `timer1` ISR: `cp`/`cpc` against
`BUTTON_RIGHT_ADC = 0x032`, `BUTTON_UP_ADC = 0x0b0`,
`BUTTON_DOWN_ADC = 0x160`, `BUTTON_LEFT_ADC = 0x22b`, where `brsh`
(branch if same or higher) skips to the next test. -/
def decodeButton (v : Nat) : Button :=
  if v < 0x032 then .right
  else if v < 0x0b0 then .up
  else if v < 0x160 then .down
  else if v < 0x22b then .left
  else .none

/-- `BUTTON_IS_PRESSED`, `CURRENT_BUTTON_PRESSED`, `LAST_BUTTON_PRESSED`. -/
structure ButtonState where
  currentButton : Button
  isPressed : Bool
  lastButton : Button
deriving DecidableEq

/-- One run of the `timer1` ISR on analog sample `v`.  Each threshold
branch writes `BUTTON_IS_PRESSED := 1` and `CURRENT_BUTTON_PRESSED`;
the fall-through branch (`skip_left`) writes only
`BUTTON_IS_PRESSED := 0` and leaves `CURRENT_BUTTON_PRESSED` alone. -/
def timer1Step (s : ButtonState) (v : Nat) : ButtonState :=
  if decodeButton v = Button.none then
    { s with isPressed := false }
  else
    { s with currentButton := decodeButton v, isPressed := true }

/-- Iterated sampler runs over a list of analog samples. -/
def runSampler (s : ButtonState) : List Nat → ButtonState
  | [] => s
  | v :: rest => runSampler (timer1Step s v) rest

/-- Startup `ButtonState` (SRAM zeroed: byte 0 maps to `Button.none`). -/
def initButtonState : ButtonState :=
  { currentButton := .none, isPressed := false, lastButton := .none }

/-- Composition state: `CURRENT_CHAR_INDEX` (cursor byte),
`TOP_LINE_CONTENT` (16 bytes), `CURRENT_CHARSET_INDEX` (16 bytes). -/
structure Comp where
  cursor : Nat
  lineBuffer : List Nat
  charsetIndex : List Nat
deriving DecidableEq

/-- State after `initialize_data_space`: `TOP_LINE_CONTENT` all spaces,
`CURRENT_CHARSET_INDEX` all zero, `CURRENT_CHAR_INDEX = 0`. -/
def initComp : Comp :=
  { cursor := 0
    lineBuffer := List.replicate 16 SPACE
    charsetIndex := List.replicate 16 0 }

/-- One run of the `timer4` ISR given the sampled `BUTTON_IS_PRESSED`
flag and `CURRENT_BUTTON_PRESSED` byte.  Mirrors the branch structure:
exit when the flag is clear; Up branch exits when the cell byte is 0
(the charset terminator), keeps the stored index when the cell is a
space (`first_up`), otherwise does the 8-bit `inc`; Down branch blanks
the cell at index 0 (`zeroed_clear_count`), otherwise decrements;
Right/Left clamp the cursor at 15/0. -/
def timer4Step (pressed : Bool) (btn : Button) (s : Comp) : Comp :=
  if pressed then
    let c := s.cursor
    let ch := s.lineBuffer.getD c 0
    let idx := s.charsetIndex.getD c 0
    match btn with
    | .up =>
      if ch = 0 then s
      else if ch = SPACE then
        { s with charsetIndex := s.charsetIndex.set c idx
                 lineBuffer := s.lineBuffer.set c (palette idx) }
      else
        { s with charsetIndex := s.charsetIndex.set c ((idx + 1) % 256)
                 lineBuffer := s.lineBuffer.set c (palette ((idx + 1) % 256)) }
    | .down =>
      if idx = 0 then
        { s with lineBuffer := s.lineBuffer.set c SPACE }
      else
        { s with charsetIndex := s.charsetIndex.set c (idx - 1)
                 lineBuffer := s.lineBuffer.set c (palette (idx - 1)) }
    | .right =>
      if c = 15 then s else { s with cursor := (c + 1) % 256 }
    | .left =>
      if c = 0 then s else { s with cursor := c - 1 }
    | .none => s
  else s

/-- Iterated `timer4` ticks, each driven by a sampled
(`BUTTON_IS_PRESSED`, `CURRENT_BUTTON_PRESSED`) pair. -/
def runTicks (s : Comp) : List (Bool × Button) → Comp
  | [] => s
  | t :: rest => runTicks (timer4Step t.1 t.2 s) rest

/-- A single LCD driver call (`lcd_gotoxy` / `lcd_putchar`). -/
inductive LCDOp where
  | gotoxy (row col : Nat)
  | putchar (ch : Nat)
deriving DecidableEq

/-- `clear_lcd_row`: for each column 0..15, `lcd_gotoxy(row, col)` then
`lcd_putchar(' ')`. -/
def clear_row_ops (row : Nat) : List LCDOp :=
  (List.range 16).flatMap (fun i => [.gotoxy row i, .putchar SPACE])

/-- `set_char`: clear row 1, then `lcd_gotoxy(row, col)` and write the
`CURRENT_BUTTON_PRESSED` glyph. -/
def set_char_ops (row col glyph : Nat) : List LCDOp :=
  clear_row_ops 1 ++ [.gotoxy row col, .putchar glyph]

/-- Fixed bottom-row column for each button glyph in
`test_which_button` (`R` → 3, `U` → 2, `D` → 1, `L` → 0); any other
byte falls through every `cpi`/`brne` pair and draws nothing. -/
def glyphCol : Button → Option Nat
  | .right => some 3
  | .up => some 2
  | .down => some 1
  | .left => some 0
  | .none => Option.none

/-- `test_which_button`: compares `LAST_BUTTON_PRESSED` with
`CURRENT_BUTTON_PRESSED`; on equality nothing happens; otherwise the
matching glyph (if any) is drawn via `set_char` and
`LAST_BUTTON_PRESSED := CURRENT_BUTTON_PRESSED` in every changed case.
Returns the LCD calls and the new `LAST_BUTTON_PRESSED`. -/
def test_which_button (current last : Button) : List LCDOp × Button :=
  if last = current then ([], last)
  else
    match glyphCol current with
    | some col => (set_char_ops 1 col (buttonChar current), current)
    | Option.none => ([], current)

/-- `set_counter`: looks up `TOP_LINE_CONTENT[CURRENT_CHAR_INDEX]`; a 0
byte (the charset terminator) is not printed; any other byte (including
a space) is written at row 0, column `CURRENT_CHAR_INDEX`. -/
def set_counter_ops (s : Comp) : List LCDOp :=
  let ch := s.lineBuffer.getD s.cursor 0
  if ch = 0 then [] else [.gotoxy 0 s.cursor, .putchar ch]

/-- `set_button_press` with the caller's stack parameter byte `param`:
always `lcd_gotoxy(1, 15)` first, then `*` and `test_which_button`
when `BUTTON_IS_PRESSED` is set, else `-`.  The routine loads the
parameter into r18 and overwrites r18, but never stores it back to the
stack slot, so the parameter byte is returned unchanged. -/
def set_button_press_model (bs : ButtonState) (param : Nat) :
    List LCDOp × ButtonState × Nat :=
  if bs.isPressed then
    let r := test_which_button bs.currentButton bs.lastButton
    ([.gotoxy 1 15, .putchar ASTERISK] ++ r.1,
      { bs with lastButton := r.2 }, param)
  else
    ([.gotoxy 1 15, .putchar DASH], bs, param)

/-- One serviced pass of `polling_loop`: `t` is the `TIFR3` byte pushed
before `rcall set_button_press` (nonzero on a serviced tick since
`OCF3A` is set).  Because `set_button_press` leaves the stack byte
unchanged, the `tst`/`breq` after the call tests `t` itself, and
`set_counter` runs whenever `t ≠ 0`. -/
def pollTick (bs : ButtonState) (cs : Comp) (t : Nat) :
    List LCDOp × ButtonState :=
  let r := set_button_press_model bs t
  if r.2.2 ≠ 0 then (r.1 ++ set_counter_ops cs, r.2.1)
  else (r.1, r.2.1)

/-- The decoder contract as the spec words it (§4.1): an explicit ordered
threshold table in the fixed priority order Right, Up, Down, Left; the
first threshold the sample is strictly below wins, else `None`.
This definition follows the spec text and is compared with
`decodeButton`, which follows the source branch cascade. -/
def buttonThresholdTable : List (Nat × Button) :=
  [(0x032, .right), (0x0b0, .up), (0x160, .down), (0x22b, .left)]

/-- Spec-worded decoder over `buttonThresholdTable` (refinement target
for `decodeButton`). -/
def decodeSpecTable (v : Nat) : Button :=
  match buttonThresholdTable.find? (fun p => v < p.1) with
  | some p => p.2
  | Option.none => .none

/-- Number of glyph redraws performed by `k` consecutive runs of
`test_which_button` while `CURRENT_BUTTON_PRESSED` stays `current`,
threading `LAST_BUTTON_PRESSED` through the runs. -/
def indicatorDrawCount (current last : Button) : Nat → Nat
  | 0 => 0
  | k + 1 =>
    let r := test_which_button current last
    (if r.1 = [] then 0 else 1) + indicatorDrawCount current r.2 k

/-- Per-cell invariant: a cell is either the blank sentinel with index 0,
or holds exactly the charset byte of its stored index (the index staying
within the assembled 38-byte table, terminator included). -/
def cellOK (ch idx : Nat) : Prop :=
  (ch = SPACE ∧ idx = 0) ∨ (idx ≤ 37 ∧ ch = palette idx)

/-- Machine-level invariant on the composition state. -/
def CompInv (s : Comp) : Prop :=
  s.lineBuffer.length = 16 ∧ s.charsetIndex.length = 16 ∧ s.cursor < 16 ∧
    ∀ c, c < 16 → cellOK (s.lineBuffer.getD c 0) (s.charsetIndex.getD c 0)

instance cellOK_decidable (ch idx : Nat) : Decidable (cellOK ch idx) :=
  inferInstanceAs (Decidable ((ch = SPACE ∧ idx = 0) ∨ (idx ≤ 37 ∧ ch = palette idx)))

set_option maxRecDepth 10000

/-! ## Helper lemmas -/

theorem getD_set_self {l : List Nat} {i x : Nat} (h : i < l.length) :
    (l.set i x).getD i 0 = x := by
  rw [List.getD_eq_getElem _ _ (by simpa using h)]
  simp [List.getElem_set_self]

theorem getD_set_ne {l : List Nat} {i j x : Nat} (h : j ≠ i) :
    (l.set i x).getD j 0 = l.getD j 0 := by
  simp [List.getD_eq_getElem?_getD, List.getElem?_set_ne (Ne.symm h)]

theorem charset_length : AVAILABLE_CHARSET.length = 38 := by decide

theorem palette_ne_space (k : Nat) : palette k ≠ SPACE := by
  rcases Nat.lt_or_ge k 38 with h | h
  · exact (by decide : ∀ m, m < 38 → palette m ≠ SPACE) k h
  · have hz : palette k = 0 :=
      List.getD_eq_default _ _ (le_trans (le_of_eq charset_length) h)
    rw [hz]; decide

theorem palette_terminator : palette 37 = 0 := by decide

/-! ### Branch equations for `timer4Step` -/

theorem timer4_unpressed (b : Button) (s : Comp) : timer4Step false b s = s := rfl

theorem timer4_none (p : Bool) (s : Comp) : timer4Step p .none s = s := by
  cases p <;> rfl

theorem timer4_up_nul (s : Comp) (hz : s.lineBuffer.getD s.cursor 0 = 0) :
    timer4Step true .up s = s := by
  simp only [timer4Step, if_true]
  rw [if_pos hz]

theorem timer4_up_blank (s : Comp) (hz : s.lineBuffer.getD s.cursor 0 ≠ 0)
    (hsp : s.lineBuffer.getD s.cursor 0 = SPACE) :
    timer4Step true .up s =
      { s with
        charsetIndex := s.charsetIndex.set s.cursor (s.charsetIndex.getD s.cursor 0)
        lineBuffer :=
          s.lineBuffer.set s.cursor (palette (s.charsetIndex.getD s.cursor 0)) } := by
  simp only [timer4Step, if_true]
  rw [if_neg hz, if_pos hsp]

theorem timer4_up_inc (s : Comp) (hz : s.lineBuffer.getD s.cursor 0 ≠ 0)
    (hsp : s.lineBuffer.getD s.cursor 0 ≠ SPACE) :
    timer4Step true .up s =
      { s with
        charsetIndex :=
          s.charsetIndex.set s.cursor ((s.charsetIndex.getD s.cursor 0 + 1) % 256)
        lineBuffer :=
          s.lineBuffer.set s.cursor
            (palette ((s.charsetIndex.getD s.cursor 0 + 1) % 256)) } := by
  simp only [timer4Step, if_true]
  rw [if_neg hz, if_neg hsp]

theorem timer4_down_zero (s : Comp) (hz : s.charsetIndex.getD s.cursor 0 = 0) :
    timer4Step true .down s =
      { s with lineBuffer := s.lineBuffer.set s.cursor SPACE } := by
  simp only [timer4Step, if_true]
  rw [if_pos hz]

theorem timer4_down_dec (s : Comp) (hz : s.charsetIndex.getD s.cursor 0 ≠ 0) :
    timer4Step true .down s =
      { s with
        charsetIndex := s.charsetIndex.set s.cursor (s.charsetIndex.getD s.cursor 0 - 1)
        lineBuffer :=
          s.lineBuffer.set s.cursor (palette (s.charsetIndex.getD s.cursor 0 - 1)) } := by
  simp only [timer4Step, if_true]
  rw [if_neg hz]

theorem timer4_right_clamp (s : Comp) (h : s.cursor = 15) :
    timer4Step true .right s = s := by
  simp only [timer4Step, if_true]
  rw [if_pos h]

theorem timer4_right_inc (s : Comp) (h : s.cursor ≠ 15) :
    timer4Step true .right s = { s with cursor := (s.cursor + 1) % 256 } := by
  simp only [timer4Step, if_true]
  rw [if_neg h]

theorem timer4_left_clamp (s : Comp) (h : s.cursor = 0) :
    timer4Step true .left s = s := by
  simp only [timer4Step, if_true]
  rw [if_pos h]

theorem timer4_left_dec (s : Comp) (h : s.cursor ≠ 0) :
    timer4Step true .left s = { s with cursor := s.cursor - 1 } := by
  simp only [timer4Step, if_true]
  rw [if_neg h]

theorem compInv_init : CompInv initComp := by
  refine ⟨by decide, by decide, by decide, ?_⟩
  exact (by decide : ∀ c, c < 16 →
    cellOK (initComp.lineBuffer.getD c 0) (initComp.charsetIndex.getD c 0))

theorem compInv_preserved (p : Bool) (b : Button) (s : Comp) (h : CompInv s) :
    CompInv (timer4Step p b s) := by
  obtain ⟨hl, hi, hc, hcell⟩ := h
  have hcl : s.cursor < s.lineBuffer.length := by omega
  have hci : s.cursor < s.charsetIndex.length := by omega
  cases p with
  | false => exact ⟨hl, hi, hc, hcell⟩
  | true =>
    cases b with
    | none => exact ⟨hl, hi, hc, hcell⟩
    | right =>
      by_cases h15 : s.cursor = 15
      · rw [timer4_right_clamp s h15]
        exact ⟨hl, hi, hc, hcell⟩
      · rw [timer4_right_inc s h15]
        refine ⟨hl, hi, ?_, hcell⟩
        have : (s.cursor + 1) % 256 = s.cursor + 1 := Nat.mod_eq_of_lt (by omega)
        simp only [this]
        omega
    | left =>
      by_cases h0 : s.cursor = 0
      · rw [timer4_left_clamp s h0]
        exact ⟨hl, hi, hc, hcell⟩
      · rw [timer4_left_dec s h0]
        exact ⟨hl, hi, by simp only []; omega, hcell⟩
    | up =>
      by_cases hz : s.lineBuffer.getD s.cursor 0 = 0
      · rw [timer4_up_nul s hz]
        exact ⟨hl, hi, hc, hcell⟩
      · by_cases hsp : s.lineBuffer.getD s.cursor 0 = SPACE
        · have hidx0 : s.charsetIndex.getD s.cursor 0 = 0 := by
            rcases hcell s.cursor hc with ⟨_, h⟩ | ⟨_, hch⟩
            · exact h
            · exact absurd (hsp ▸ hch).symm (palette_ne_space _)
          rw [timer4_up_blank s hz hsp]
          refine ⟨by simpa using hl, by simpa using hi, hc, ?_⟩
          intro c' hc'
          by_cases hcc : c' = s.cursor
          · subst hcc
            show cellOK ((s.lineBuffer.set s.cursor _).getD s.cursor 0)
              ((s.charsetIndex.set s.cursor _).getD s.cursor 0)
            rw [getD_set_self hcl, getD_set_self hci]
            exact Or.inr ⟨by omega, rfl⟩
          · show cellOK ((s.lineBuffer.set s.cursor _).getD c' 0)
              ((s.charsetIndex.set s.cursor _).getD c' 0)
            rw [getD_set_ne hcc, getD_set_ne hcc]
            exact hcell c' hc'
        · rcases hcell s.cursor hc with ⟨hch, _⟩ | ⟨hle, hch⟩
          · exact absurd hch hsp
          · have hne37 : s.charsetIndex.getD s.cursor 0 ≠ 37 := by
              intro h37
              exact hz (by rw [hch, h37, palette_terminator])
            have hmod : (s.charsetIndex.getD s.cursor 0 + 1) % 256 =
                s.charsetIndex.getD s.cursor 0 + 1 :=
              Nat.mod_eq_of_lt (by omega)
            rw [timer4_up_inc s hz hsp]
            refine ⟨by simpa using hl, by simpa using hi, hc, ?_⟩
            intro c' hc'
            by_cases hcc : c' = s.cursor
            · subst hcc
              show cellOK ((s.lineBuffer.set s.cursor _).getD s.cursor 0)
                ((s.charsetIndex.set s.cursor _).getD s.cursor 0)
              rw [getD_set_self hcl, getD_set_self hci, hmod]
              exact Or.inr ⟨by omega, rfl⟩
            · show cellOK ((s.lineBuffer.set s.cursor _).getD c' 0)
                ((s.charsetIndex.set s.cursor _).getD c' 0)
              rw [getD_set_ne hcc, getD_set_ne hcc]
              exact hcell c' hc'
    | down =>
      by_cases hz : s.charsetIndex.getD s.cursor 0 = 0
      · rw [timer4_down_zero s hz]
        refine ⟨by simpa using hl, hi, hc, ?_⟩
        intro c' hc'
        by_cases hcc : c' = s.cursor
        · subst hcc
          show cellOK ((s.lineBuffer.set s.cursor _).getD s.cursor 0) (s.charsetIndex.getD s.cursor 0)
          rw [getD_set_self hcl]
          exact Or.inl ⟨rfl, hz⟩
        · show cellOK ((s.lineBuffer.set s.cursor _).getD c' 0) (s.charsetIndex.getD c' 0)
          rw [getD_set_ne hcc]
          exact hcell c' hc'
      · rcases hcell s.cursor hc with ⟨_, h0⟩ | ⟨hle, _⟩
        · exact absurd h0 hz
        · rw [timer4_down_dec s hz]
          refine ⟨by simpa using hl, by simpa using hi, hc, ?_⟩
          intro c' hc'
          by_cases hcc : c' = s.cursor
          · subst hcc
            show cellOK ((s.lineBuffer.set s.cursor _).getD s.cursor 0)
              ((s.charsetIndex.set s.cursor _).getD s.cursor 0)
            rw [getD_set_self hcl, getD_set_self hci]
            exact Or.inr ⟨by omega, rfl⟩
          · show cellOK ((s.lineBuffer.set s.cursor _).getD c' 0)
              ((s.charsetIndex.set s.cursor _).getD c' 0)
            rw [getD_set_ne hcc, getD_set_ne hcc]
            exact hcell c' hc'

theorem compInv_runTicks (l : List (Bool × Button)) :
    ∀ s : Comp, CompInv s → CompInv (runTicks s l) := by
  induction l with
  | nil => intro s h; exact h
  | cons t rest ih =>
    intro s h
    exact ih _ (compInv_preserved t.1 t.2 s h)

theorem compInv_reachable (l : List (Bool × Button)) :
    CompInv (runTicks initComp l) :=
  compInv_runTicks l initComp compInv_init

/-! ## Sampler lemmas -/

theorem sampler_inv_aux (samples : List Nat) :
    ∀ s : ButtonState, (s.isPressed = true → s.currentButton ≠ Button.none) →
      (runSampler s samples).isPressed = true →
      (runSampler s samples).currentButton ≠ Button.none := by
  induction samples with
  | nil => intro s h; exact h
  | cons v rest ih =>
    intro s h
    refine ih (timer1Step s v) ?_
    by_cases hd : decodeButton v = Button.none
    · intro hp
      simp [timer1Step, hd] at hp
    · intro _
      simp [timer1Step, hd]

/-- C3: for every raw analog sample, the branch cascade of the `timer1`
ISR computes exactly the spec's ascending-threshold decode: the first
threshold in the fixed priority order Right (0x032), Up (0x0b0),
Down (0x160), Left (0x22b) that the sample is strictly below wins, and
`None` if the sample is below none of them; the result is one of the
five identities by the type of `Button`. -/
theorem decode_matches_priority_table :
    ∀ v : Nat, decodeButton v = decodeSpecTable v := by
  intro v
  unfold decodeButton decodeSpecTable buttonThresholdTable
  by_cases h1 : v < 0x032 <;> by_cases h2 : v < 0x0b0 <;>
    by_cases h3 : v < 0x160 <;> by_cases h4 : v < 0x22b <;>
      simp [List.find?, h1, h2, h3, h4]

/-- C2 counterexample: the sample sequence 0x000 (decodes Right) then
0x384 (`BUTTON_NONE_ADC`, decodes to no button) leaves the sampler
state with `isPressed = false` but `currentButton = Right ≠ None`,
because the `skip_left` fall-through of `timer1` writes only
`BUTTON_IS_PRESSED` and never `CURRENT_BUTTON_PRESSED`. -/
theorem sampler_release_cex :
    (runSampler initButtonState [0x000, 0x384]).isPressed = false ∧
    (runSampler initButtonState [0x000, 0x384]).currentButton = Button.right := by
  exact ⟨by decide, by decide⟩

/-- C2 (amended): each `timer1` run writes
`isPressed = (decoded ≠ None)`; it writes `currentButton` only when a
button decodes, and leaves it unchanged when the decode is `None`, so
`isPressed = false` does not force `currentButton = None`; instead the
invariant `isPressed = true → currentButton ≠ None` holds after every
run from the zeroed startup state, for every sequence of samples. -/
theorem sampler_write_discipline :
    (∀ (s : ButtonState) (v : Nat),
        (timer1Step s v).isPressed = decide (decodeButton v ≠ Button.none) ∧
        (timer1Step s v).currentButton =
          (if decodeButton v = Button.none then s.currentButton
           else decodeButton v) ∧
        (timer1Step s v).lastButton = s.lastButton) ∧
    (∀ samples : List Nat,
        (runSampler initButtonState samples).isPressed = true →
        (runSampler initButtonState samples).currentButton ≠ Button.none) := by
  constructor
  · intro s v
    by_cases hd : decodeButton v = Button.none <;> simp [timer1Step, hd]
  · intro samples
    exact sampler_inv_aux samples initButtonState (by intro h; cases h)

theorem sampler_write_discipline_witness :
    (runSampler initButtonState [0x000]).currentButton ≠ Button.none :=
  sampler_write_discipline.2 [0x000] (by decide)

/-- C4: a `timer4` tick with Down pressed, at cursor column `c`: when
`CURRENT_CHARSET_INDEX[c] = 0` it blanks `TOP_LINE_CONTENT[c]` and does
not touch the index array (no decrement past zero); otherwise it
decrements the index and stores the charset byte of the new index; the
cursor is unchanged in both cases. -/
theorem down_tick_spec (s : Comp)
    (hl : s.lineBuffer.length = 16) (hi : s.charsetIndex.length = 16)
    (hc : s.cursor < 16) :
    (s.charsetIndex.getD s.cursor 0 = 0 →
        (timer4Step true .down s).lineBuffer.getD s.cursor 0 = SPACE ∧
        (timer4Step true .down s).charsetIndex = s.charsetIndex ∧
        (timer4Step true .down s).cursor = s.cursor) ∧
    (s.charsetIndex.getD s.cursor 0 ≠ 0 →
        (timer4Step true .down s).charsetIndex.getD s.cursor 0 =
          s.charsetIndex.getD s.cursor 0 - 1 ∧
        (timer4Step true .down s).lineBuffer.getD s.cursor 0 =
          palette (s.charsetIndex.getD s.cursor 0 - 1) ∧
        (timer4Step true .down s).cursor = s.cursor) := by
  constructor
  · intro hz
    rw [timer4_down_zero s hz]
    exact ⟨getD_set_self (by omega), rfl, rfl⟩
  · intro hz
    rw [timer4_down_dec s hz]
    exact ⟨getD_set_self (by omega), getD_set_self (by omega), rfl⟩

theorem down_tick_spec_witness :
    (timer4Step true Button.down initComp).lineBuffer.getD initComp.cursor 0
      = SPACE :=
  ((down_tick_spec initComp (by decide) (by decide) (by decide)).1
    (by decide)).1

/-! ## Cursor lemmas -/

theorem cursor_le_step (p : Bool) (b : Button) (s : Comp)
    (h : s.cursor ≤ 15) : (timer4Step p b s).cursor ≤ 15 := by
  cases p with
  | false => exact h
  | true =>
    cases b with
    | none => exact h
    | up =>
      by_cases hz : s.lineBuffer.getD s.cursor 0 = 0
      · rw [timer4_up_nul s hz]; exact h
      · by_cases hsp : s.lineBuffer.getD s.cursor 0 = SPACE
        · rw [timer4_up_blank s hz hsp]; exact h
        · rw [timer4_up_inc s hz hsp]; exact h
    | down =>
      by_cases hz : s.charsetIndex.getD s.cursor 0 = 0
      · rw [timer4_down_zero s hz]; exact h
      · rw [timer4_down_dec s hz]; exact h
    | right =>
      by_cases h15 : s.cursor = 15
      · rw [timer4_right_clamp s h15]; exact h
      · rw [timer4_right_inc s h15]
        show (s.cursor + 1) % 256 ≤ 15
        rw [Nat.mod_eq_of_lt (by omega)]
        omega
    | left =>
      by_cases h0 : s.cursor = 0
      · rw [timer4_left_clamp s h0]; exact h
      · rw [timer4_left_dec s h0]
        show s.cursor - 1 ≤ 15
        omega

/-- C5: cursor movement clamps at both ends (Right at 15 and Left at 0
are no-ops on the whole state), otherwise Right adds one and Left
subtracts one; every `timer4` tick preserves `cursor ≤ 15`, and from
startup the cursor stays in `[0, 15]` over every tick sequence. -/
theorem cursor_clamp_and_bound :
    (∀ (s : Comp) (p : Bool), s.cursor = 15 → timer4Step p .right s = s) ∧
    (∀ (s : Comp) (p : Bool), s.cursor = 0 → timer4Step p .left s = s) ∧
    (∀ s : Comp, s.cursor < 15 →
        (timer4Step true .right s).cursor = s.cursor + 1) ∧
    (∀ s : Comp, s.cursor ≠ 0 →
        (timer4Step true .left s).cursor = s.cursor - 1) ∧
    (∀ (p : Bool) (b : Button) (s : Comp), s.cursor ≤ 15 →
        (timer4Step p b s).cursor ≤ 15) ∧
    (∀ l : List (Bool × Button), (runTicks initComp l).cursor ≤ 15) := by
  refine ⟨?_, ?_, ?_, ?_, cursor_le_step, ?_⟩
  · intro s p h
    cases p with
    | false => rfl
    | true => exact timer4_right_clamp s h
  · intro s p h
    cases p with
    | false => rfl
    | true => exact timer4_left_clamp s h
  · intro s h
    rw [timer4_right_inc s (by omega)]
    show (s.cursor + 1) % 256 = s.cursor + 1
    exact Nat.mod_eq_of_lt (by omega)
  · intro s h
    rw [timer4_left_dec s h]
  · intro l
    have h := (compInv_reachable l).2.2.1
    omega

theorem cursor_clamp_and_bound_witness :
    timer4Step true Button.right
        { cursor := 15, lineBuffer := List.replicate 16 SPACE
          charsetIndex := List.replicate 16 0 } =
      { cursor := 15, lineBuffer := List.replicate 16 SPACE
        charsetIndex := List.replicate 16 0 } ∧
    (runTicks initComp [(true, Button.right)]).cursor ≤ 15 :=
  ⟨cursor_clamp_and_bound.1 _ true rfl,
    cursor_clamp_and_bound.2.2.2.2.2 [(true, Button.right)]⟩

/-- C1 counterexample: after 37 consecutive Up ticks from startup the
column-0 cell holds `!` (0x21) at index 36 — exactly the state named by
the claim — yet the 38th Up tick changes the composition state: the Up
branch only refuses to increment when the cell byte is 0, so it steps
the index to 37 and stores the charset terminator byte in the cell. -/
theorem up_38th_tick_cex :
    (runTicks initComp
        (List.replicate 37 (true, Button.up))).charsetIndex.getD 0 0 = 36 ∧
    (runTicks initComp
        (List.replicate 37 (true, Button.up))).lineBuffer.getD 0 0 = 0x21 ∧
    timer4Step true Button.up
        (runTicks initComp (List.replicate 37 (true, Button.up))) ≠
      runTicks initComp (List.replicate 37 (true, Button.up)) := by
  exact ⟨by decide, by decide, by decide⟩

/-- C1 (amended): an Up tick at the cursor column leaves the whole state
unchanged exactly when the cell byte is the charset terminator 0 (the
state reached one tick after `!`); at a blank cell it keeps the stored
index and rewrites the cell to that index's charset byte (index 0 and
`a` in every reachable blank state); otherwise it increments the index
(8-bit) and stores the charset byte of the new index.  In the N = 37
scenario, the 38th consecutive Up tick sets index 37 and stores the
terminator byte 0, and it is the 39th Up tick that leaves the state
unchanged. -/
theorem up_tick_amended (s : Comp)
    (hl : s.lineBuffer.length = 16) (hi : s.charsetIndex.length = 16)
    (hc : s.cursor < 16) :
    (s.lineBuffer.getD s.cursor 0 = 0 → timer4Step true .up s = s) ∧
    (s.lineBuffer.getD s.cursor 0 ≠ 0 →
      s.lineBuffer.getD s.cursor 0 = SPACE →
        (timer4Step true .up s).charsetIndex.getD s.cursor 0 =
          s.charsetIndex.getD s.cursor 0 ∧
        (timer4Step true .up s).lineBuffer.getD s.cursor 0 =
          palette (s.charsetIndex.getD s.cursor 0)) ∧
    (s.lineBuffer.getD s.cursor 0 ≠ 0 →
      s.lineBuffer.getD s.cursor 0 ≠ SPACE →
        (timer4Step true .up s).charsetIndex.getD s.cursor 0 =
          (s.charsetIndex.getD s.cursor 0 + 1) % 256 ∧
        (timer4Step true .up s).lineBuffer.getD s.cursor 0 =
          palette ((s.charsetIndex.getD s.cursor 0 + 1) % 256)) ∧
    ((runTicks initComp
        (List.replicate 38 (true, Button.up))).charsetIndex.getD 0 0 = 37 ∧
     (runTicks initComp
        (List.replicate 38 (true, Button.up))).lineBuffer.getD 0 0 = 0 ∧
     timer4Step true Button.up
        (runTicks initComp (List.replicate 38 (true, Button.up))) =
       runTicks initComp (List.replicate 38 (true, Button.up))) := by
  refine ⟨?_, ?_, ?_, by decide, by decide, by decide⟩
  · intro hz
    exact timer4_up_nul s hz
  · intro hz hsp
    rw [timer4_up_blank s hz hsp]
    exact ⟨getD_set_self (by omega), getD_set_self (by omega)⟩
  · intro hz hsp
    rw [timer4_up_inc s hz hsp]
    exact ⟨getD_set_self (by omega), getD_set_self (by omega)⟩

theorem up_tick_amended_witness :
    (timer4Step true Button.up initComp).lineBuffer.getD initComp.cursor 0 =
      palette (initComp.charsetIndex.getD initComp.cursor 0) :=
  (((up_tick_amended initComp (by decide) (by decide) (by decide)).2.1
    (by decide) (by decide))).2

/-! ## Round-trip lemma -/

theorem round_trip_aux (s : Comp) (hl : s.lineBuffer.length = 16)
    (hi : s.charsetIndex.length = 16) (hc : s.cursor < 16)
    (hb : s.lineBuffer.getD s.cursor 0 = SPACE)
    (h0 : s.charsetIndex.getD s.cursor 0 = 0) :
    (timer4Step true .down (timer4Step true .up s)).lineBuffer.getD
        s.cursor 0 = SPACE ∧
    (timer4Step true .down (timer4Step true .up s)).charsetIndex.getD
        s.cursor 0 = 0 ∧
    (timer4Step true .down (timer4Step true .up s)).cursor = s.cursor := by
  have hz : s.lineBuffer.getD s.cursor 0 ≠ 0 := by rw [hb]; decide
  have e1 := timer4_up_blank s hz hb
  have h1c : (timer4Step true Button.up s).cursor = s.cursor := by rw [e1]
  have h1i : (timer4Step true Button.up s).charsetIndex.getD
      (timer4Step true Button.up s).cursor 0 = 0 := by
    rw [e1]
    show (s.charsetIndex.set s.cursor _).getD s.cursor 0 = 0
    rw [getD_set_self (by omega)]
    exact h0
  have e2 := timer4_down_zero (timer4Step true Button.up s) h1i
  refine ⟨?_, ?_, ?_⟩
  · rw [e2]
    show ((timer4Step true Button.up s).lineBuffer.set
        (timer4Step true Button.up s).cursor SPACE).getD s.cursor 0 = SPACE
    rw [h1c]
    refine getD_set_self ?_
    rw [e1]
    show s.cursor < (s.lineBuffer.set s.cursor _).length
    rw [List.length_set]
    omega
  · rw [e2]
    show (timer4Step true Button.up s).charsetIndex.getD s.cursor 0 = 0
    rw [e1]
    show (s.charsetIndex.set s.cursor _).getD s.cursor 0 = 0
    rw [getD_set_self (by omega)]
    exact h0
  · rw [e2]
    exact h1c

/-- C8: in every reachable composition state whose selected cell is
blank, one Up tick followed by one Down tick (cursor untouched in
between) restores `CURRENT_CHARSET_INDEX` to 0 and the cell to blank
at that column, leaving the cursor where it was. -/
theorem up_down_round_trip (l : List (Bool × Button))
    (hb : (runTicks initComp l).lineBuffer.getD
        (runTicks initComp l).cursor 0 = SPACE) :
    (timer4Step true .down
        (timer4Step true .up (runTicks initComp l))).lineBuffer.getD
        (runTicks initComp l).cursor 0 = SPACE ∧
    (timer4Step true .down
        (timer4Step true .up (runTicks initComp l))).charsetIndex.getD
        (runTicks initComp l).cursor 0 = 0 ∧
    (timer4Step true .down
        (timer4Step true .up (runTicks initComp l))).cursor =
      (runTicks initComp l).cursor := by
  obtain ⟨hl, hi, hc, hcell⟩ := compInv_reachable l
  have h0 : (runTicks initComp l).charsetIndex.getD
      (runTicks initComp l).cursor 0 = 0 := by
    rcases hcell (runTicks initComp l).cursor hc with ⟨_, h⟩ | ⟨_, hch⟩
    · exact h
    · have : palette ((runTicks initComp l).charsetIndex.getD
          (runTicks initComp l).cursor 0) = SPACE := by rw [← hch, hb]
      exact absurd this (palette_ne_space _)
  exact round_trip_aux _ hl hi hc hb h0

theorem up_down_round_trip_witness :
    (timer4Step true Button.down
        (timer4Step true Button.up (runTicks initComp []))).charsetIndex.getD
        (runTicks initComp []).cursor 0 = 0 :=
  (up_down_round_trip [] (by decide)).2.1

/-- C9: in every composition state reachable from startup, a blank
(space) cell has `CURRENT_CHARSET_INDEX` 0 at that column — blanking
only ever happens at index 0 and initialization zeroes the indices —
which is why the `first_up` path, reusing the stored index instead of
writing 0, still selects the first charset byte. -/
theorem blank_cell_index_zero (l : List (Bool × Button)) (c : Nat)
    (hc : c < 16)
    (hb : (runTicks initComp l).lineBuffer.getD c 0 = SPACE) :
    (runTicks initComp l).charsetIndex.getD c 0 = 0 := by
  obtain ⟨hl, hi, _, hcell⟩ := compInv_reachable l
  rcases hcell c hc with ⟨_, h⟩ | ⟨_, hch⟩
  · exact h
  · have : palette ((runTicks initComp l).charsetIndex.getD c 0) = SPACE := by
      rw [← hch, hb]
    exact absurd this (palette_ne_space _)

theorem blank_cell_index_zero_witness :
    (runTicks initComp [(true, Button.right)]).charsetIndex.getD 0 0 = 0 :=
  blank_cell_index_zero [(true, Button.right)] 0 (by decide) (by decide)

/-! ## Display-indicator lemmas -/

theorem twb_same (b : Button) : test_which_button b b = ([], b) := by
  simp [test_which_button]

theorem twb_changed (b l : Button) (col : Nat) (hne : b ≠ l)
    (hcol : glyphCol b = some col) :
    test_which_button b l = (set_char_ops 1 col (buttonChar b), b) := by
  unfold test_which_button
  rw [if_neg (fun h => hne h.symm), hcol]

theorem set_char_ops_ne_nil (row col glyph : Nat) :
    set_char_ops row col glyph ≠ [] := by
  simp [set_char_ops, clear_row_ops]

theorem drawCount_steady (b : Button) (k : Nat) :
    indicatorDrawCount b b k = 0 := by
  induction k with
  | zero => rfl
  | succ n ih =>
    simp only [indicatorDrawCount, twb_same]
    simpa using ih

/-- C7: the Display Indicator does nothing when `CURRENT_BUTTON_PRESSED`
equals `LAST_BUTTON_PRESSED`; when they differ and the current value is
one of the four buttons it clears the bottom row, writes the glyph at
the row-1 column given by Left → 0, Down → 1, Up → 2, Right → 3, and
then sets `LAST_BUTTON_PRESSED` to the current value; consequently,
over any number of consecutive runs with the current value held steady
after a change, the glyph is drawn exactly once. -/
theorem indicator_once_per_change :
    (∀ b : Button, test_which_button b b = ([], b)) ∧
    (glyphCol .left = some 0 ∧ glyphCol .down = some 1 ∧
      glyphCol .up = some 2 ∧ glyphCol .right = some 3) ∧
    (∀ (b l : Button) (col : Nat), b ≠ l → glyphCol b = some col →
        test_which_button b l =
          (clear_row_ops 1 ++ [.gotoxy 1 col, .putchar (buttonChar b)], b)) ∧
    (∀ (b l : Button) (k : Nat), b ≠ l → (∃ col, glyphCol b = some col) →
        indicatorDrawCount b l (k + 1) = 1) := by
  refine ⟨twb_same, ⟨rfl, rfl, rfl, rfl⟩, ?_, ?_⟩
  · intro b l col hne hcol
    rw [twb_changed b l col hne hcol]
    rfl
  · intro b l k hne hex
    obtain ⟨col, hcol⟩ := hex
    simp only [indicatorDrawCount, twb_changed b l col hne hcol]
    simp [set_char_ops_ne_nil, drawCount_steady]

theorem indicator_once_per_change_witness :
    indicatorDrawCount Button.up Button.none 3 = 1 :=
  indicator_once_per_change.2.2.2 Button.up Button.none 2 (by decide)
    ⟨2, rfl⟩

theorem sbp_param (bs : ButtonState) (t : Nat) :
    (set_button_press_model bs t).2.2 = t := by
  cases hbp : bs.isPressed <;> simp [set_button_press_model, hbp]

/-- C10: on every serviced pass of the polling loop, for every button
and composition state, the first two LCD calls are
`lcd_gotoxy(1, 15)` followed by `lcd_putchar` of `*` when
`BUTTON_IS_PRESSED` is set and `-` otherwise — before any indicator or
composition rendering, and independent of whether the button value
changed. -/
theorem marker_first_each_tick :
    ∀ (bs : ButtonState) (cs : Comp) (t : Nat),
      ((pollTick bs cs t).1.take 2 =
        [LCDOp.gotoxy 1 15,
         LCDOp.putchar (if bs.isPressed then ASTERISK else DASH)]) := by
  intro bs cs t
  cases hbp : bs.isPressed <;> by_cases ht : t = 0 <;>
    simp [pollTick, set_button_press_model, hbp, ht]

/-- C6 counterexample: take `BUTTON_IS_PRESSED = 0`,
`CURRENT_BUTTON_PRESSED = Right`, `LAST_BUTTON_PRESSED = Down` and the
startup composition state (cursor 0, all cells blank) on a serviced
tick.  The claim requires the indicator logic to run and requires no
draw at the blank selected cell; the code instead skips the indicator
entirely (`LAST_BUTTON_PRESSED` stays `Down`, no clear/glyph calls) and
draws a space at row 0, column 0, because `set_counter` runs whenever
the serviced-flag byte is nonzero and only skips the terminator byte 0,
not blanks. -/
theorem poll_tick_blank_cex :
    (pollTick { currentButton := .right, isPressed := false
                lastButton := .down } initComp 2).1 =
      [.gotoxy 1 15, .putchar DASH, .gotoxy 0 0, .putchar SPACE] ∧
    initComp.lineBuffer.getD initComp.cursor 0 = SPACE ∧
    LCDOp.putchar SPACE ∈
      (pollTick { currentButton := .right, isPressed := false
                  lastButton := .down } initComp 2).1 ∧
    (pollTick { currentButton := .right, isPressed := false
                lastButton := .down } initComp 2).2.lastButton =
      Button.down := by
  exact ⟨by decide, by decide, by decide, by decide⟩

/-- C6 (amended): each serviced tick runs `set_button_press` and then —
because the pressed-flag stack byte is returned unchanged and the
serviced `TIFR3` byte is nonzero — always appends the `set_counter`
rendering of the selected column, whatever the button state; the
indicator logic runs only inside the pressed branch (the button state
is untouched when `isPressed` is false); and the render draws
`TOP_LINE_CONTENT[Cursor]` at row 0 unless that byte is the charset
terminator 0 (a blank cell is drawn as a space, not skipped). -/
theorem poll_tick_amended (bs : ButtonState) (cs : Comp) (t : Nat)
    (ht : t ≠ 0) :
    (pollTick bs cs t).1 =
      (set_button_press_model bs t).1 ++ set_counter_ops cs ∧
    (bs.isPressed = false → (pollTick bs cs t).2 = bs) ∧
    (cs.lineBuffer.getD cs.cursor 0 ≠ 0 →
        LCDOp.putchar (cs.lineBuffer.getD cs.cursor 0) ∈
          (pollTick bs cs t).1) := by
  have e : (pollTick bs cs t).1 =
      (set_button_press_model bs t).1 ++ set_counter_ops cs := by
    simp [pollTick, sbp_param, ht]
  refine ⟨e, ?_, ?_⟩
  · intro hbp
    simp [pollTick, set_button_press_model, hbp, sbp_param, ht]
  · intro hch
    have hrender : set_counter_ops cs =
        [.gotoxy 0 cs.cursor, .putchar (cs.lineBuffer.getD cs.cursor 0)] := by
      rw [set_counter_ops, if_neg hch]
    rw [e, hrender]
    simp

theorem poll_tick_amended_witness :
    (pollTick initButtonState initComp 2).1 =
      (set_button_press_model initButtonState 2).1 ++
        set_counter_ops initComp :=
  (poll_tick_amended initButtonState initComp 2 (by decide)).1
